import Mathlib

/-!
Verification development for the PbStockResearcher repository.

This file gives a shallow embedding of the three source files of the
repository — the EDGAR full-index scraper (`scraper` package), the
financial-report data model (`filings` package) and the batch consumer
(`PbStockParser.go`) — and settles the frozen claims about them.

External collaborators (HTTP, the blob store `tmpStore`, the persisters,
the zip reader, the external filing parser) are abstracted as explicit
parameters: their return values are inputs to the embedded functions and
the calls made to them are recorded as explicit actions/effects, so every
decision made by the repository's own code is modelled faithfully.

Go string primitives used by the source (`strings.Split`, `strings.Trim`,
`strings.Replace`, `strings.Contains`, `strings.Join`, `strconv.Atoi`)
are embedded below with Go's semantics.
-/

/-- Go `strings.Split(s, sep)` for a one-character separator: auxiliary
recursion over the characters, `acc` holds the current field reversed. -/
def splitAux (sep : Char) : List Char → List Char → List String
  | [], acc => [String.mk acc.reverse]
  | c :: cs, acc =>
    if c = sep then String.mk acc.reverse :: splitAux sep cs []
    else splitAux sep cs (c :: acc)

/-- Go `strings.Split(s, sep)` for a one-character separator.
`goSplit sep "" = [""]`, matching Go. -/
def goSplit (sep : Char) (s : String) : List String :=
  splitAux sep s.data []

/-- Go `strings.Contains(s, sub)`: some position of `s` starts with `sub`.
`strContains s "" = true`, matching Go. -/
def strContains (s sub : String) : Bool :=
  (List.range (s.data.length + 1)).any (fun i => sub.data.isPrefixOf (s.data.drop i))

/-- Go `strings.Trim(s, cutset)`: removes all leading and all trailing
characters that belong to `cutset` (a character set, not a suffix!). -/
def goTrim (s cutset : String) : String :=
  String.mk (((s.data.dropWhile (fun c => cutset.data.contains c)).reverse.dropWhile
    (fun c => cutset.data.contains c)).reverse)

/-- Go `strings.Replace(s, old, new, -1)` for a one-character pattern:
replaces every occurrence of `old` by `nw`. -/
def goReplaceChar (s : String) (old : Char) (nw : String) : String :=
  String.mk (s.data.foldr (fun c acc => if c = old then nw.data ++ acc else c :: acc) [])

/-- Go `strings.Join(parts, sep)`. -/
def joinSep (sep : String) : List String → String
  | [] => ""
  | [x] => x
  | x :: y :: xs => x ++ sep ++ joinSep sep (y :: xs)

/-- Value of a non-empty all-digit character list, `none` otherwise. -/
def digitsVal (ds : List Char) : Option Nat :=
  if ds = [] then none
  else if ds.all Char.isDigit then
    some (ds.foldl (fun a c => a * 10 + (c.toNat - 48)) 0)
  else none

/-- Go `strconv.Atoi` syntax: optional sign then one or more digits.
(The 64-bit range check is irrelevant at the inputs the claims concern
and is not modelled.)  On error Go returns the pair `(0, err)`; the
`none` result here corresponds to that error, and callers that read the
integer anyway (as `ParseIndexFile` does) use `0`, Go's zero value. -/
def goAtoi (s : String) : Option Int :=
  match s.data with
  | '+' :: ds => (digitsVal ds).map (fun n => (n : Int))
  | '-' :: ds => (digitsVal ds).map (fun n => -(n : Int))
  | ds => (digitsVal ds).map (fun n => (n : Int))

/-! ## filings package (src/unnamed/part_001) -/

/-- Embedding of `filings.FinancialReport` (src/unnamed/part_001 lines 7-12). -/
structure FinancialReport where
  CIK : Int
  Year : Int
  Quarter : Int
  Revenue : Int
  OperatingExpense : Int
  NetIncome : Int
  CurrentAssets : Int
  TotalAssets : Int
  CurrentLiabilities : Int
  TotalLiabilities : Int
  OperatingCash : Int
  CapitalExpenditures : Int
deriving DecidableEq

/-- Embedding of `filings.FinancialReport.IsValid` (src/unnamed/part_001 lines 14-59):
appends a field name to `missingFields` for each zero metric, in the
source's order, and returns an error (here `some missingFields`) iff the
string is non-empty; `none` models the `nil` error. -/
def FinancialReport.IsValid (fr : FinancialReport) : Option String :=
  let missingFields :=
    (if fr.Revenue = 0 then "Revenue," else "") ++
    (if fr.OperatingExpense = 0 then "OperatingExpense," else "") ++
    (if fr.NetIncome = 0 then "NetIncome," else "") ++
    (if fr.TotalAssets = 0 then "TotalAssets," else "") ++
    (if fr.TotalLiabilities = 0 then "TotalLiabilities," else "") ++
    (if fr.CurrentAssets = 0 then "CurrentAssets," else "") ++
    (if fr.CurrentLiabilities = 0 then "CurrentLiabilities," else "") ++
    (if fr.OperatingCash = 0 then "OperatingCash," else "") ++
    (if fr.CapitalExpenditures = 0 then "CapitalExpenditures," else "")
  if missingFields.length > 0 then some missingFields else none

/-- Embedding of `filings.FinancialReportRaw` (src/unnamed/part_001 lines 61-64); the
raw-fields map is embedded as an association list. -/
structure FinancialReportRaw where
  CIK : Int
  Year : Int
  Quarter : Int
  RawFields : List (String × Int)
deriving DecidableEq

/-- Embedding of `filings.FinancialReportRaw.GetPreviousQuarter`
(src/unnamed/part_001 lines 66-72). -/
def FinancialReportRaw.GetPreviousQuarter (frr : FinancialReportRaw) : Int × Int :=
  if frr.Quarter = 1 then (frr.Year - 1, 4)
  else (frr.Year, frr.Quarter - 1)

/-- Modelled from the spec: `filings.Company` is declared outside src/
(only its construction site is in src); §3 of the spec gives
{CIK: int64, Name}. -/
structure Company where
  CIK : Int
  Name : String
deriving DecidableEq

/-- Modelled from the spec: `filings.ReportFile` is declared outside src/
(only its uses are in src); §3 of the spec gives
{CIK, Year, Quarter: int64, FormType, Filepath, Parsed: bool}. -/
structure ReportFile where
  CIK : Int
  Year : Int
  Quarter : Int
  Parsed : Bool
  FormType : String
  Filepath : String
deriving DecidableEq

/-! ## scraper package (src/unnamed/part_000) -/

/-- Embedding of `scraper.getBucket` (src/unnamed/part_000 lines 203-205). -/
def getBucket (cik : String) : String := "CIK_" ++ cik

/-- Embedding of `scraper.getKey` (src/unnamed/part_000 lines 207-213): builds the
key and rewrites every `/` to `_`. -/
def getKey (formType : String) (year quarter : Int) : String :=
  goReplaceChar ("Y" ++ toString year ++ "Q" ++ toString quarter ++ "FT" ++ formType) '/' "_"

/-- Character class `[a-z]|[0-9]` of the source's regex. -/
def isRegexAlnum (c : Char) : Bool :=
  (decide ('a' ≤ c) && decide (c ≤ 'z')) || (decide ('0' ≤ c) && decide (c ≤ '9'))

/-- Tail of the source's regex after the dash: `[0-9]+` then `.` (any
character except newline, RE2 default) then the literal `xml`,
anywhere as a prefix of `es` up to trailing junk. -/
def matchDigitsAnyXml (es : List Char) : Bool :=
  (List.range (es.length + 1)).any fun d =>
    decide (1 ≤ d) && (es.take d).all Char.isDigit &&
      (match es.drop d with
       | c :: cx :: cm :: cl :: _ =>
         decide (c ≠ '\n') && decide (cx = 'x') && decide (cm = 'm') && decide (cl = 'l')
       | _ => false)

/-- The source's regex `([a-z]|[0-9])+-[0-9]+.xml` matched at the start
of `cs` (trailing junk allowed, as in Go's unanchored matching). -/
def matchFromStart (cs : List Char) : Bool :=
  (List.range (cs.length + 1)).any fun a =>
    decide (1 ≤ a) && (cs.take a).all isRegexAlnum &&
      (match cs.drop a with
       | cd :: rest => decide (cd = '-') && matchDigitsAnyXml rest
       | [] => false)

/-- Embedding of `scraper.isXbrlFileMatch` (src/unnamed/part_000 lines 215-218):
Go `regexp.MatchString("([a-z]|[0-9])+-[0-9]+.xml", fileName)` —
unanchored substring search, and the unescaped `.` matches any
character except newline. -/
def isXbrlFileMatch (fileName : String) : Bool :=
  (List.range (fileName.data.length + 1)).any fun i =>
    matchFromStart (fileName.data.drop i)

/-- The shape the amended C5 ascribes to `isXbrlFileMatch`, as a
proposition: the name contains a run of `[a-z0-9]`, a dash, a run of
digits, one arbitrary non-newline character, then `xml`. -/
def XbrlMatchShape (s : String) : Prop :=
  ∃ (pre s1 s2 post : List Char) (c : Char),
    s.data = pre ++ (s1 ++ ('-' :: (s2 ++ (c :: 'x' :: 'm' :: 'l' :: post)))) ∧
    s1 ≠ [] ∧ s1.all isRegexAlnum = true ∧
    s2 ≠ [] ∧ s2.all Char.isDigit = true ∧ c ≠ '\n'

/-- Modelled from the spec's words (§4.4/§6), for comparison with
`isXbrlFileMatch`: the whole entry name has the shape
`[a-z0-9]+-[0-9]+\.xml` with a literal dot. -/
def specXbrlShape (s : String) : Bool :=
  (List.range (s.data.length + 1)).any fun a =>
    decide (1 ≤ a) && (s.data.take a).all isRegexAlnum &&
      (match s.data.drop a with
       | '-' :: rest =>
         (List.range (rest.length + 1)).any fun d =>
           decide (1 ≤ d) && (rest.take d).all Char.isDigit &&
             decide (rest.drop d = ['.', 'x', 'm', 'l'])
       | _ => false)

/-- Outcome of Go's `http.Get` when no transport error occurred: the
status code and the (fully read) body. -/
structure HttpResponse where
  status : Nat
  body : String
deriving DecidableEq

/-- Calls the scraper makes to its collaborators, plus its log lines, in
program order.  `getXbrlCall` records a hand-off from `ParseIndexFile`
to `GetXbrl` (an HTTP package fetch) with the freshly built
`ReportFile` stub. -/
inductive ScrapeAct where
  | logTooLong : ScrapeAct
  | insertCompany (c : Company) : ScrapeAct
  | logCikErr (cik : String) : ScrapeAct
  | getXbrlCall (edgarFilename bucket fileKey : String) (stub : ReportFile) : ScrapeAct
  | logSkipCached (filename filePath : String) : ScrapeAct
deriving DecidableEq

/-- Body of `ParseIndexFile`'s per-line record handling in `LIST` state
(src/unnamed/part_000 lines 92-125).  Go's `elements[1]` … `elements[4]`
are unchecked index accesses: a line with fewer than five `|`-fields
panics, modelled by `none`.  On a CIK parse error the source logs but
still derives (bucket, key) from the CIK *string* and, on a cache miss,
calls `GetXbrl` with a stub whose CIK is `0` (Go's zero value from the
failed `Atoi`).  `store` is the collaborator `tmpStore.GetFilePath`. -/
def processListLine (year quarter : Int) (store : String → String → String)
    (lineStr : String) : Option (List ScrapeAct) :=
  match goSplit '|' lineStr with
  | cik :: companyName :: formType :: _dateFiled :: filename :: _ =>
    let cikRes := goAtoi cik
    let cikInt : Int := match cikRes with | some n => n | none => 0
    let acts1 : List ScrapeAct :=
      match cikRes with
      | some n => [ScrapeAct.insertCompany ⟨n, companyName⟩]
      | none => [ScrapeAct.logCikErr cik]
    let bucket := getBucket cik
    let fileKey := getKey formType year quarter
    let filePath := store bucket fileKey
    some (acts1 ++
      (if filePath = "" then
        [ScrapeAct.getXbrlCall filename bucket fileKey
          { CIK := cikInt, Year := year, Quarter := quarter, Parsed := false,
            FormType := formType, Filepath := "" }]
      else [ScrapeAct.logSkipCached filename filePath]))
  | _ => none

/-- One `ReadLine` result: `tooLong` is bufio's is-prefix flag (the line
overflowed the buffer) and `text` the returned bytes. -/
structure IndexLine where
  tooLong : Bool
  text : String
deriving DecidableEq

/-- The read loop of `ParseIndexFile` (src/unnamed/part_000 lines
68-128): skip-and-log too-long lines, stay in `HEADER` until a line
containing `-------` is seen, then treat every line as a record.  The
returned Bool is `true` when a record line panicked (aborting the whole
run); the action list holds everything emitted before that point. -/
def parseIndexLoop (year quarter : Int) (store : String → String → String) :
    Bool → List IndexLine → List ScrapeAct × Bool
  | _, [] => ([], false)
  | listBegun, l :: ls =>
    if l.tooLong then
      let r := parseIndexLoop year quarter store listBegun ls
      (ScrapeAct.logTooLong :: r.1, r.2)
    else if !listBegun && strContains l.text "-------" then
      parseIndexLoop year quarter store true ls
    else if listBegun then
      match processListLine year quarter store l.text with
      | none => ([], true)
      | some as =>
        let r := parseIndexLoop year quarter store listBegun ls
        (as ++ r.1, r.2)
    else
      parseIndexLoop year quarter store listBegun ls

/-- Embedding of `scraper.ParseIndexFile` over the sequence of `ReadLine` results. -/
def ParseIndexFile (year quarter : Int) (store : String → String → String)
    (ls : List IndexLine) : List ScrapeAct × Bool :=
  parseIndexLoop year quarter store false ls

/-- The package-URL derivation inside `GetXbrl` (src/unnamed/part_000
lines 133-143): requires the filename to contain `.txt`, takes the 4th
`/`-component (a missing 4th component panics in Go, modelled by
`none`), derives the basename with `strings.Trim(parts[3], ".txt")`,
and rejoins under the archive root. -/
def deriveXbrlUrl (edgarFilename : String) : Option String :=
  if strContains edgarFilename ".txt" then
    match (goSplit '/' edgarFilename).get? 3 with
    | none => none
    | some p3 =>
      let baseName := goTrim p3 ".txt"
      let preBase := goReplaceChar baseName '-' ""
      some ("http://www.sec.gov/Archives/" ++
        joinSep "/" ((goSplit '/' edgarFilename).set 3
          (preBase ++ "/" ++ baseName ++ "-xbrl.zip")))
  else none

/-- If `s` ends with the literal suffix `.txt`, remove exactly that
suffix; otherwise return `s` unchanged. -/
def stripTxtSuffix (s : String) : String :=
  if ['t', 'x', 't', '.'].isPrefixOf s.data.reverse then
    String.mk (s.data.reverse.drop 4).reverse
  else s

/-- Modelled from the spec's words (§4.3/§6), for comparison with
`deriveXbrlUrl`: identical construction except that the basename is
obtained by stripping exactly the `.txt` suffix of the 4th component. -/
def deriveXbrlUrlSpec (edgarFilename : String) : Option String :=
  if strContains edgarFilename ".txt" then
    match (goSplit '/' edgarFilename).get? 3 with
    | none => none
    | some p3 =>
      let baseName := stripTxtSuffix p3
      let preBase := goReplaceChar baseName '-' ""
      some ("http://www.sec.gov/Archives/" ++
        joinSep "/" ((goSplit '/' edgarFilename).set 3
          (preBase ++ "/" ++ baseName ++ "-xbrl.zip")))
  else none

/-- Effects of `GetXbrl`/`getXbrlFromZip`: collaborator calls and log
lines, in program order. -/
inductive XbrlEff where
  | logUnexpectedType (f : String) : XbrlEff
  | logGetFailed (url : String) : XbrlEff
  | storeZip (bucket name body : String) : XbrlEff
  | openArchive (path : String) : XbrlEff
  | logZipOpenFailed (path : String) : XbrlEff
  | logFoundEntry (n : String) : XbrlEff
  | storeEntry (bucket key entryName : String) : XbrlEff
  | persistReportFile (rf : ReportFile) : XbrlEff
  | logEntryOpenFailed : XbrlEff
  | logNoMatch (path : String) : XbrlEff
deriving DecidableEq

/-- Embedding of `scraper.getXbrlFromZip` (src/unnamed/part_000 lines 163-201).
`zo` is the result of `zip.OpenReader` (`none` = open error, `some`
the entry names in archive order); `entryOpenOk` whether the matched
entry's `Open` succeeds; `entryStorePath` what `ts.StoreFile` returns
for the extracted entry (the source persists the `ReportFile` with that
path without checking it).  The scan takes the first `isXbrlFileMatch`
entry and breaks; with no match it only logs. -/
def getXbrlFromZip (zipFileName bucket fileKey : String)
    (zo : Option (List String)) (entryOpenOk : Bool) (entryStorePath : String)
    (rf : ReportFile) : List XbrlEff :=
  XbrlEff.openArchive zipFileName ::
    (match zo with
     | none => [XbrlEff.logZipOpenFailed zipFileName]
     | some entries =>
       match entries.find? (fun n => isXbrlFileMatch n) with
       | none => [XbrlEff.logNoMatch zipFileName]
       | some n =>
         if entryOpenOk then
           [XbrlEff.logFoundEntry n, XbrlEff.storeEntry bucket fileKey n,
            XbrlEff.persistReportFile { rf with Filepath := entryStorePath }]
         else [XbrlEff.logFoundEntry n, XbrlEff.logEntryOpenFailed])

/-- Embedding of `scraper.GetXbrl` (src/unnamed/part_000 lines 132-161).  `http` is
the `http.Get` outcome (`none` = transport error; the source never
inspects the status code); `nowStr` the `time.Now().Unix()` string;
`storeZipResult` what `ts.StoreFile` returns for the downloaded
package.  The Bool is `true` when the 4th-component access panicked. -/
def GetXbrl (edgarFilename bucket fileKey : String) (rf : ReportFile)
    (http : Option HttpResponse) (nowStr storeZipResult : String)
    (zo : Option (List String)) (entryOpenOk : Bool) (entryStorePath : String) :
    List XbrlEff × Bool :=
  if strContains edgarFilename ".txt" then
    match (goSplit '/' edgarFilename).get? 3 with
    | none => ([], true)
    | some p3 =>
      let baseName := goTrim p3 ".txt"
      let preBase := goReplaceChar baseName '-' ""
      let fullUrl := "http://www.sec.gov/Archives/" ++
        joinSep "/" ((goSplit '/' edgarFilename).set 3
          (preBase ++ "/" ++ baseName ++ "-xbrl.zip"))
      match http with
      | none => ([XbrlEff.logGetFailed fullUrl], false)
      | some resp =>
        let outputFileName := nowStr ++ baseName ++ "-xbrl.zip"
        if storeZipResult = "" then
          ([XbrlEff.storeZip bucket outputFileName resp.body], false)
        else
          (XbrlEff.storeZip bucket outputFileName resp.body ::
            getXbrlFromZip storeZipResult bucket fileKey zo entryOpenOk entryStorePath rf,
           false)
  else ([XbrlEff.logUnexpectedType edgarFilename], false)

/-! ## batch consumer (src/PbStockParser.go) -/

/-- Result of processing one pulled `ReportFile` in the batch loop. -/
structure BatchStep where
  persisted : ReportFile
  parserInvoked : Bool
  validInc : Int
  invalidInc : Int
deriving DecidableEq

/-- The per-file body of the batch loop in `main`
(src/PbStockParser.go lines 55-94).  `parsedFr` abstracts the external
filing parser's output (`frp.GetFinancialReport()`) for this file; the
source's own decisions — the Filepath filter, setting `Parsed`,
persisting, counting — are modelled exactly. -/
def processBatchReportFile (rf : ReportFile) (parsedFr : FinancialReport) : BatchStep :=
  if !strContains rf.Filepath "10-Q" && !strContains rf.Filepath "10-K" &&
     !strContains rf.Filepath "10-K_A" && !strContains rf.Filepath "10-Q_A" then
    { persisted := { rf with Parsed := true }, parserInvoked := false,
      validInc := 0, invalidInc := 0 }
  else
    match parsedFr.IsValid with
    | none =>
      { persisted := { rf with Parsed := true }, parserInvoked := true,
        validInc := 1, invalidInc := 0 }
    | some _ =>
      { persisted := { rf with Parsed := true }, parserInvoked := true,
        validInc := 0, invalidInc := 1 }

/-- A concrete `ReportFile` used by several concrete evaluations. -/
def sampleReportFile : ReportFile :=
  { CIK := 1, Year := 2020, Quarter := 1, Parsed := false,
    FormType := "10-K", Filepath := "" }

/-- A concrete `ReportFile` whose path names a 10-K filing. -/
def rfTenK : ReportFile :=
  { CIK := 1, Year := 2020, Quarter := 1, Parsed := false,
    FormType := "10-K", Filepath := "edgar/10-K/doc.xml" }

/-- A concrete `ReportFile` whose path names none of the handled forms. -/
def rfOther : ReportFile :=
  { CIK := 1, Year := 2020, Quarter := 1, Parsed := false,
    FormType := "8-K", Filepath := "edgar/8-K/doc.xml" }

/-- A concrete fully populated `FinancialReport`. -/
def frAllOnes : FinancialReport := ⟨1, 2020, 1, 1, 1, 1, 1, 1, 1, 1, 1, 1⟩

/-- A concrete `FinancialReport` missing only `CapitalExpenditures`. -/
def frNoCapEx : FinancialReport := ⟨1, 2020, 1, 1, 1, 1, 1, 1, 1, 1, 1, 0⟩

/-! ## Theorems -/

/-- C1: the claim says that a `LIST` line whose CIK fails integer
parsing is skipped entirely — no Company upsert, no `ReportFile`, no
package fetch — while parsing continues.  The code only skips the
Company upsert: evaluated at a two-record index whose first record has
the unparseable CIK `"XX"` and a fresh (empty) store, `ParseIndexFile`
still derives `(bucket, key)` from the raw CIK string and hands the
record to `GetXbrl` — an HTTP package fetch — with a `ReportFile` stub
whose CIK is `0` (Go's `Atoi` zero value), before continuing with the
next record. -/
theorem C1_bad_cik_still_fetches :
    ParseIndexFile 2020 1 (fun _ _ => "")
      [⟨false, "--------"⟩,
       ⟨false, "XX|Foo Co|10-K|2020-01-01|edgar/data/1/0000000001-20-000001.txt"⟩,
       ⟨false, "34|Bar|10-Q|2020-02-01|edgar/data/34/34-20.txt"⟩] =
    ([ScrapeAct.logCikErr "XX",
      ScrapeAct.getXbrlCall "edgar/data/1/0000000001-20-000001.txt" "CIK_XX" "Y2020Q1FT10-K"
        ⟨0, 2020, 1, false, "10-K", ""⟩,
      ScrapeAct.insertCompany ⟨34, "Bar"⟩,
      ScrapeAct.getXbrlCall "edgar/data/34/34-20.txt" "CIK_34" "Y2020Q1FT10-Q"
        ⟨34, 2020, 1, false, "10-Q", ""⟩], false) := by
  decide

/-- C2 counterexample: a `LIST` line with fewer than five `|`-fields is
not a recoverable per-row failure.  On an index whose second line is
`"1|A|10-K"` (three fields), the run aborts (the Bool is `true`) with
no actions emitted, and the well-formed third record is never parsed —
refuting "the row is logged and skipped, parsing of subsequent lines
continues, and the line never aborts the enclosing quarterly run". -/
theorem C2_short_line_aborts_run :
    ParseIndexFile 2020 1 (fun _ _ => "")
      [⟨false, "--------"⟩, ⟨false, "1|A|10-K"⟩,
       ⟨false, "2|Acme|10-K|2020-01-01|edgar/data/2/2-20.txt"⟩] = ([], true) := by
  decide

/-- A `LIST` line with fewer than five `|`-fields makes
`processListLine` panic (Go's unchecked `elements[1]` … `elements[4]`
index accesses), modelled by `none`. -/
theorem processListLine_short_eq_none (year quarter : Int)
    (store : String → String → String) (l : String)
    (h : (goSplit '|' l).length < 5) :
    processListLine year quarter store l = none := by
  unfold processListLine
  rcases e : goSplit '|' l with _ | ⟨a, _ | ⟨b, _ | ⟨c, _ | ⟨d, _ | ⟨f, tl⟩⟩⟩⟩⟩
  · rfl
  · rfl
  · rfl
  · rfl
  · rfl
  · rw [e] at h
    simp only [List.length_cons] at h
    omega

/-- C2 amended: in `LIST` state, a line that splits on `|` into fewer
than five fields triggers an unchecked field access that aborts the
enclosing run: no per-row action is emitted for it and no subsequent
line is parsed.  (Only too-long lines are the recoverable per-row
case.) -/
theorem C2_amended_short_line_panics (year quarter : Int)
    (store : String → String → String) (l : String) (rest : List IndexLine)
    (h : (goSplit '|' l).length < 5) :
    parseIndexLoop year quarter store true (⟨false, l⟩ :: rest) = ([], true) := by
  unfold parseIndexLoop
  simp [processListLine_short_eq_none year quarter store l h]

/-- C2 amended, witnessed at the concrete three-field line `"a|b|c"`. -/
theorem C2_amended_witness :
    parseIndexLoop 2020 1 (fun _ _ => "") true [⟨false, "a|b|c"⟩] = ([], true) :=
  C2_amended_short_line_panics 2020 1 (fun _ _ => "") "a|b|c" [] (by decide)

/-- C6: for a well-formed index record, when the blob store already maps
the derived (bucket, key) to a non-empty path, the record is skipped
with a log — no `GetXbrl` hand-off (hence no package fetch) and no
`ReportFile` stub; the download hand-off happens exactly when the store
returns the empty path. -/
theorem C6_cached_key_skips_download (year quarter : Int)
    (store : String → String → String)
    (lineStr cik nm ft df fn : String) (rest : List String) (n : Int)
    (hsplit : goSplit '|' lineStr = cik :: nm :: ft :: df :: fn :: rest)
    (hcik : goAtoi cik = some n) :
    (store (getBucket cik) (getKey ft year quarter) ≠ "" →
      processListLine year quarter store lineStr =
        some [ScrapeAct.insertCompany ⟨n, nm⟩,
              ScrapeAct.logSkipCached fn (store (getBucket cik) (getKey ft year quarter))]) ∧
    (store (getBucket cik) (getKey ft year quarter) = "" →
      processListLine year quarter store lineStr =
        some [ScrapeAct.insertCompany ⟨n, nm⟩,
              ScrapeAct.getXbrlCall fn (getBucket cik) (getKey ft year quarter)
                { CIK := n, Year := year, Quarter := quarter, Parsed := false,
                  FormType := ft, Filepath := "" }]) := by
  unfold processListLine
  rw [hsplit]
  constructor <;> intro hstore <;> simp [hcik, hstore]

/-- C6, witnessed: with a store that already holds `"cached/p"` for
every key, the record is skipped with a log and no fetch hand-off. -/
theorem C6_witness :
    processListLine 2020 1 (fun _ _ => "cached/p")
      "12|Acme|10-K|2020-01-01|edgar/data/12/12-20.txt" =
    some [ScrapeAct.insertCompany ⟨12, "Acme"⟩,
          ScrapeAct.logSkipCached "edgar/data/12/12-20.txt" "cached/p"] :=
  (C6_cached_key_skips_download 2020 1 (fun _ _ => "cached/p")
    "12|Acme|10-K|2020-01-01|edgar/data/12/12-20.txt"
    "12" "Acme" "10-K" "2020-01-01" "edgar/data/12/12-20.txt" [] 12
    (by decide) (by decide)).1 (by decide)

set_option maxRecDepth 4096
set_option maxHeartbeats 1000000

/-- C7: `IsValid` returns no error iff all nine canonical metric fields
are non-zero, and a report in which only `CapitalExpenditures` is zero
yields an error whose diagnostic string is exactly
`"CapitalExpenditures,"`. -/
theorem C7_isValid_iff_nonzero (fr : FinancialReport) :
    (fr.IsValid = none ↔
      (fr.Revenue ≠ 0 ∧ fr.OperatingExpense ≠ 0 ∧ fr.NetIncome ≠ 0 ∧
       fr.CurrentAssets ≠ 0 ∧ fr.TotalAssets ≠ 0 ∧ fr.CurrentLiabilities ≠ 0 ∧
       fr.TotalLiabilities ≠ 0 ∧ fr.OperatingCash ≠ 0 ∧ fr.CapitalExpenditures ≠ 0)) ∧
    (fr.Revenue ≠ 0 → fr.OperatingExpense ≠ 0 → fr.NetIncome ≠ 0 →
     fr.CurrentAssets ≠ 0 → fr.TotalAssets ≠ 0 → fr.CurrentLiabilities ≠ 0 →
     fr.TotalLiabilities ≠ 0 → fr.OperatingCash ≠ 0 → fr.CapitalExpenditures = 0 →
     fr.IsValid = some "CapitalExpenditures,") := by
  by_cases h1 : fr.Revenue = 0 <;> by_cases h2 : fr.OperatingExpense = 0 <;>
    by_cases h3 : fr.NetIncome = 0 <;> by_cases h4 : fr.TotalAssets = 0 <;>
    by_cases h5 : fr.TotalLiabilities = 0 <;> by_cases h6 : fr.CurrentAssets = 0 <;>
    by_cases h7 : fr.CurrentLiabilities = 0 <;> by_cases h8 : fr.OperatingCash = 0 <;>
    by_cases h9 : fr.CapitalExpenditures = 0 <;>
    simp [FinancialReport.IsValid, h1, h2, h3, h4, h5, h6, h7, h8, h9] <;> decide

/-- C7, witnessed: a fully populated report is valid, and the report
missing only `CapitalExpenditures` gets exactly the diagnostic
`"CapitalExpenditures,"`. -/
theorem C7_witness :
    frAllOnes.IsValid = none ∧ frNoCapEx.IsValid = some "CapitalExpenditures," :=
  ⟨(C7_isValid_iff_nonzero frAllOnes).1.mpr
      ⟨by decide, by decide, by decide, by decide, by decide, by decide, by decide,
       by decide, by decide⟩,
   (C7_isValid_iff_nonzero frNoCapEx).2 (by decide) (by decide) (by decide) (by decide)
     (by decide) (by decide) (by decide) (by decide) (by decide)⟩

/-- C8: every `ReportFile` that reaches the parse/normalize path (its
Filepath passes the form filter) is persisted with `Parsed = true`
whether the canonical report is valid or invalid; validity decides only
which counter is incremented. -/
theorem C8_parsed_regardless_of_validity (rf : ReportFile) (fr : FinancialReport)
    (h : (!strContains rf.Filepath "10-Q" && !strContains rf.Filepath "10-K" &&
          !strContains rf.Filepath "10-K_A" && !strContains rf.Filepath "10-Q_A") = false) :
    (processBatchReportFile rf fr).persisted = { rf with Parsed := true } ∧
    (processBatchReportFile rf fr).persisted.Parsed = true ∧
    (processBatchReportFile rf fr).parserInvoked = true ∧
    (fr.IsValid = none →
      (processBatchReportFile rf fr).validInc = 1 ∧
      (processBatchReportFile rf fr).invalidInc = 0) ∧
    (fr.IsValid ≠ none →
      (processBatchReportFile rf fr).validInc = 0 ∧
      (processBatchReportFile rf fr).invalidInc = 1) := by
  unfold processBatchReportFile
  rw [h]
  cases hv : fr.IsValid <;> simp [hv]

/-- C8, witnessed at a 10-K path with a fully populated report. -/
theorem C8_witness :
    (processBatchReportFile rfTenK frAllOnes).persisted.Parsed = true ∧
    (processBatchReportFile rfTenK frAllOnes).validInc = 1 :=
  ⟨(C8_parsed_regardless_of_validity rfTenK frAllOnes (by decide)).2.1,
   ((C8_parsed_regardless_of_validity rfTenK frAllOnes (by decide)).2.2.2.1
     (by decide)).1⟩

/-- C9: for Quarter in 1..4, `GetPreviousQuarter` returns
`(Year − 1, 4)` when Quarter = 1 and `(Year, Quarter − 1)` otherwise,
and the returned quarter is always in 1..4. -/
theorem C9_previous_quarter_valid (frr : FinancialReportRaw)
    (hlo : 1 ≤ frr.Quarter) (hhi : frr.Quarter ≤ 4) :
    (frr.Quarter = 1 → frr.GetPreviousQuarter = (frr.Year - 1, 4)) ∧
    (frr.Quarter ≠ 1 → frr.GetPreviousQuarter = (frr.Year, frr.Quarter - 1)) ∧
    1 ≤ frr.GetPreviousQuarter.2 ∧ frr.GetPreviousQuarter.2 ≤ 4 := by
  unfold FinancialReportRaw.GetPreviousQuarter
  by_cases hq : frr.Quarter = 1 <;> simp [hq] <;> omega

/-- C9, witnessed: quarter 1 of 2020 wraps to quarter 4 of 2019. -/
theorem C9_witness :
    (FinancialReportRaw.mk 7 2020 1 []).GetPreviousQuarter = (2019, 4) := by
  have h := (C9_previous_quarter_valid ⟨7, 2020, 1, []⟩ (by decide) (by decide)).1 (by decide)
  rw [h]
  decide

/-- C10: a pulled `ReportFile` whose Filepath contains none of `10-Q`,
`10-K`, `10-K_A`, `10-Q_A` is persisted with `Parsed = true` without
the filing parser or normalization ever being invoked, and neither
counter is incremented. -/
theorem C10_unhandled_form_not_parsed (rf : ReportFile) (fr : FinancialReport)
    (h1 : strContains rf.Filepath "10-Q" = false)
    (h2 : strContains rf.Filepath "10-K" = false)
    (h3 : strContains rf.Filepath "10-K_A" = false)
    (h4 : strContains rf.Filepath "10-Q_A" = false) :
    processBatchReportFile rf fr =
      { persisted := { rf with Parsed := true }, parserInvoked := false,
        validInc := 0, invalidInc := 0 } := by
  unfold processBatchReportFile
  rw [h1, h2, h3, h4]
  simp

/-- C10, witnessed at an 8-K path. -/
theorem C10_witness :
    processBatchReportFile rfOther frAllOnes =
      { persisted := { rfOther with Parsed := true }, parserInvoked := false,
        validInc := 0, invalidInc := 0 } :=
  C10_unhandled_form_not_parsed rfOther frAllOnes
    (by decide) (by decide) (by decide) (by decide)

/-- Go `strings.Trim(s, ".txt")` does strip an actual `.txt` suffix
whenever the remaining basename neither starts nor ends with a
character of the cutset {'.', 't', 'x'}. -/
theorem goTrim_append_txt (base : String) (b c : Char) (bs cs : List Char)
    (hdata : base.data = b :: bs) (hrev : base.data.reverse = c :: cs)
    (hb : (".txt".data.contains b) = false) (hc : (".txt".data.contains c) = false) :
    goTrim (base ++ ".txt") ".txt" = base := by
  unfold goTrim
  have hdapp : (base ++ ".txt").data = base.data ++ ".txt".data := by
    simp [String.data_append]
  rw [hdapp, hdata]
  have h1 : List.dropWhile (fun ch => ".txt".data.contains ch) ((b :: bs) ++ ".txt".data) =
      (b :: bs) ++ ".txt".data := by
    rw [List.cons_append, List.dropWhile_cons, hb]
    simp
  rw [h1]
  have h2 : ((b :: bs) ++ ".txt".data).reverse = ['t', 'x', 't', '.'] ++ (c :: cs) := by
    rw [List.reverse_append]
    rw [← hdata, hrev]
    rfl
  rw [h2]
  have pt : (".txt".data.contains 't') = true := by decide
  have px : (".txt".data.contains 'x') = true := by decide
  have pd : (".txt".data.contains '.') = true := by decide
  have h3 : List.dropWhile (fun ch => ".txt".data.contains ch)
      (['t', 'x', 't', '.'] ++ (c :: cs)) = c :: cs := by
    simp only [List.cons_append, List.nil_append, List.dropWhile_cons, pt, px, pd,
      if_true, hc, if_false, Bool.false_eq_true]
  rw [h3, ← hrev, List.reverse_reverse]

/-- Stripping exactly a `.txt` suffix, on a string that has one. -/
theorem stripTxtSuffix_append (base : String) :
    stripTxtSuffix (base ++ ".txt") = base := by
  unfold stripTxtSuffix
  have hdapp : (base ++ ".txt").data = base.data ++ ".txt".data := by
    simp [String.data_append]
  have hrev : (base ++ ".txt").data.reverse = ['t', 'x', 't', '.'] ++ base.data.reverse := by
    rw [hdapp, List.reverse_append]
    rfl
  rw [hrev]
  have hpre : List.isPrefixOf ['t', 'x', 't', '.']
      (['t', 'x', 't', '.'] ++ base.data.reverse) = true := by
    rw [List.isPrefixOf_iff_prefix]
    exact List.prefix_append _ _
  rw [hpre]
  simp only [if_true]
  have hdrop : (['t', 'x', 't', '.'] ++ base.data.reverse).drop 4 = base.data.reverse := rfl
  rw [hdrop, List.reverse_reverse]

/-- C4 counterexample: the claim says the accession basename is
obtained by "stripping exactly its `.txt` suffix" from the 4th path
component.  The source uses `strings.Trim(parts[3], ".txt")`, which
trims every leading and trailing character of the set {'.','t','x'}:
for the index filename `edgar/data/12345/txt-1.txt` the code derives
basename `-1` (the 4th URL component becomes `1` then `-1-xbrl.zip`)
whereas the claim's construction yields basename `txt-1` (component
`txt1` then `txt-1-xbrl.zip`). -/
theorem C4_trim_is_not_suffix_strip :
    deriveXbrlUrl "edgar/data/12345/txt-1.txt" =
      some "http://www.sec.gov/Archives/edgar/data/12345/1/-1-xbrl.zip" ∧
    deriveXbrlUrlSpec "edgar/data/12345/txt-1.txt" =
      some "http://www.sec.gov/Archives/edgar/data/12345/txt1/txt-1-xbrl.zip" ∧
    deriveXbrlUrl "edgar/data/12345/txt-1.txt" ≠
      deriveXbrlUrlSpec "edgar/data/12345/txt-1.txt" :=
  ⟨by decide, by decide, by decide⟩

/-- C4 amended: for an index filename containing `.txt` whose 4th
`/`-component is `<base>.txt` with `<base>` neither starting nor ending
in a character of {'.','t','x'}, the derived URL is exactly as the
claim describes — 4th component replaced by
`<dashless-base>/<base>-xbrl.zip`, rejoined under the SEC archive root
— and agrees with the spec's suffix-strip construction.  (In general
the code trims the character set {'.','t','x'} from both ends instead
of stripping the suffix, per the counterexample.) -/
theorem C4_amended_url_derivation (f base : String) (b c : Char) (bs cs : List Char)
    (hsplit : (goSplit '/' f).get? 3 = some (base ++ ".txt"))
    (hcontains : strContains f ".txt" = true)
    (hdata : base.data = b :: bs) (hrev : base.data.reverse = c :: cs)
    (hb : (".txt".data.contains b) = false) (hc : (".txt".data.contains c) = false) :
    deriveXbrlUrl f =
      some ("http://www.sec.gov/Archives/" ++
        joinSep "/" ((goSplit '/' f).set 3
          (goReplaceChar base '-' "" ++ "/" ++ base ++ "-xbrl.zip"))) ∧
    deriveXbrlUrl f = deriveXbrlUrlSpec f := by
  have htrim : goTrim (base ++ ".txt") ".txt" = base :=
    goTrim_append_txt base b c bs cs hdata hrev hb hc
  have hstrip : stripTxtSuffix (base ++ ".txt") = base :=
    stripTxtSuffix_append base
  unfold deriveXbrlUrl deriveXbrlUrlSpec
  rw [hcontains]
  simp only [if_true, hsplit, htrim, hstrip]
  exact ⟨trivial, trivial⟩

/-- C4 amended, witnessed at the filename `a/b/c/d-1.txt`. -/
theorem C4_witness :
    deriveXbrlUrl "a/b/c/d-1.txt" =
      some ("http://www.sec.gov/Archives/" ++
        joinSep "/" ((goSplit '/' "a/b/c/d-1.txt").set 3
          (goReplaceChar "d-1" '-' "" ++ "/" ++ "d-1" ++ "-xbrl.zip"))) ∧
    deriveXbrlUrl "a/b/c/d-1.txt" = deriveXbrlUrlSpec "a/b/c/d-1.txt" :=
  C4_amended_url_derivation "a/b/c/d-1.txt" "d-1" 'd' '1' "-1".data "-d".data
    (by decide) (by decide) (by decide) (by decide) (by decide) (by decide)

/-- C3 counterexample: the claim says a non-200 HTTP status on the
package fetch stores nothing and attempts no extraction.  `GetXbrl`
never inspects the status code: with a 404 response the body is stored
in the blob store (`storeZip`) and, the store having returned a path,
archive extraction is attempted (`openArchive`) — it merely fails to
find an entry because the body is not an archive. -/
theorem C3_non200_still_stores :
    GetXbrl "edgar/data/1/a-1.txt" "CIK_1" "KEY1" sampleReportFile
      (some ⟨404, "notfound"⟩) "99" "/tmp/z.zip" (some []) true "" =
    ([XbrlEff.storeZip "CIK_1" "99a-1-xbrl.zip" "notfound",
      XbrlEff.openArchive "/tmp/z.zip",
      XbrlEff.logNoMatch "/tmp/z.zip"], false) := by
  decide

/-- C3 amended: a GET transport error aborts only the record — a log
entry and nothing else, so nothing is stored, no extraction is
attempted and no ReportFile is persisted.  The HTTP status is never
checked: for every response, 200 or not, the body is stored under the
collision-avoiding name; extraction is attempted exactly when the blob
store returns a non-empty path for the stored package; and when the
stored body fails to open as an archive (as a non-200 error page does)
no ReportFile is persisted. -/
theorem C3_amended_fetch_failure_isolation
    (f bucket key nowStr szp esp url : String) (rf : ReportFile)
    (zo : Option (List String)) (eo : Bool)
    (hc : strContains f ".txt" = true)
    (hurl : deriveXbrlUrl f = some url) :
    (GetXbrl f bucket key rf none nowStr szp zo eo esp =
      ([XbrlEff.logGetFailed url], false)) ∧
    (∀ st body, ∃ nm, XbrlEff.storeZip bucket nm body ∈
        (GetXbrl f bucket key rf (some ⟨st, body⟩) nowStr szp zo eo esp).1) ∧
    (∀ st body, (XbrlEff.openArchive szp ∈
        (GetXbrl f bucket key rf (some ⟨st, body⟩) nowStr szp zo eo esp).1 ↔ szp ≠ "")) ∧
    (∀ st body rf2, zo = none → XbrlEff.persistReportFile rf2 ∉
        (GetXbrl f bucket key rf (some ⟨st, body⟩) nowStr szp zo eo esp).1) := by
  have hget : ∃ p3, (goSplit '/' f)[3]? = some p3 := by
    rcases e : (goSplit '/' f)[3]? with _ | p3
    · unfold deriveXbrlUrl at hurl
      rw [hc] at hurl
      simp [e] at hurl
    · exact ⟨p3, rfl⟩
  obtain ⟨p3, hp3⟩ := hget
  have hu : "http://www.sec.gov/Archives/" ++
      joinSep "/" ((goSplit '/' f).set 3
        (goReplaceChar (goTrim p3 ".txt") '-' "" ++ "/" ++ goTrim p3 ".txt" ++ "-xbrl.zip")) =
      url := by
    unfold deriveXbrlUrl at hurl
    rw [hc] at hurl
    simp [hp3] at hurl
    exact hurl
  refine ⟨?_, ?_, ?_, ?_⟩
  · unfold GetXbrl
    rw [hc]
    simp [hp3, hu]
  · intro st body
    refine ⟨nowStr ++ goTrim p3 ".txt" ++ "-xbrl.zip", ?_⟩
    unfold GetXbrl
    rw [hc]
    by_cases hszp : szp = "" <;> simp [hp3, hszp]
  · intro st body
    unfold GetXbrl
    rw [hc]
    by_cases hszp : szp = "" <;> simp [hp3, hszp, getXbrlFromZip]
  · intro st body rf2 hzo
    subst hzo
    unfold GetXbrl
    rw [hc]
    by_cases hszp : szp = "" <;> simp [hp3, hszp, getXbrlFromZip]

/-- C3 amended, witnessed: a transport error on the package GET
produces only the failure log. -/
theorem C3_witness :
    GetXbrl "edgar/data/1/a-1.txt" "B" "K" sampleReportFile none "9" "/z"
      (some []) true "/p" =
    ([XbrlEff.logGetFailed "http://www.sec.gov/Archives/edgar/data/1/a1/a-1-xbrl.zip"],
     false) :=
  (C3_amended_fetch_failure_isolation "edgar/data/1/a-1.txt" "B" "K" "9" "/z" "/p"
    "http://www.sec.gov/Archives/edgar/data/1/a1/a-1-xbrl.zip" sampleReportFile
    (some []) true (by decide) (by decide)).1

/-- The Go regex `([a-z]|[0-9])+-[0-9]+.xml` as matched by
`regexp.MatchString` holds exactly when the name contains a run of
`[a-z0-9]`, a dash, a run of digits, one arbitrary non-newline
character, and then `xml` — the unescaped dot and the absence of
anchors make both the literal `.` and the `.xml`-suffix position of the
spec's reading unnecessary. -/
theorem isXbrlFileMatch_iff_shape (s : String) :
    isXbrlFileMatch s = true ↔ XbrlMatchShape s := by
  constructor
  · intro h
    unfold isXbrlFileMatch at h
    rw [List.any_eq_true] at h
    obtain ⟨i, hiR, hi⟩ := h
    unfold matchFromStart at hi
    rw [List.any_eq_true] at hi
    obtain ⟨a, haR, ha⟩ := hi
    simp only [Bool.and_eq_true, decide_eq_true_eq] at ha
    obtain ⟨⟨ha1, hall⟩, hmatch⟩ := ha
    rcases e : (s.data.drop i).drop a with _ | ⟨cd, rest⟩
    · rw [e] at hmatch
      simp at hmatch
    · rw [e] at hmatch
      simp only [Bool.and_eq_true, decide_eq_true_eq] at hmatch
      obtain ⟨hcd, hdig⟩ := hmatch
      subst hcd
      unfold matchDigitsAnyXml at hdig
      rw [List.any_eq_true] at hdig
      obtain ⟨d, hdR, hd⟩ := hdig
      simp only [Bool.and_eq_true, decide_eq_true_eq] at hd
      obtain ⟨⟨hd1, hdall⟩, hdmatch⟩ := hd
      rcases e2 : rest.drop d with _ | ⟨c, _ | ⟨cx, _ | ⟨cm, _ | ⟨cl, post⟩⟩⟩⟩ <;>
        rw [e2] at hdmatch
      · simp at hdmatch
      · simp at hdmatch
      · simp at hdmatch
      · simp at hdmatch
      simp only [Bool.and_eq_true, decide_eq_true_eq] at hdmatch
      obtain ⟨⟨⟨hcnl, hx⟩, hm⟩, hl⟩ := hdmatch
      subst hx
      subst hm
      subst hl
      have hlne : s.data.drop i ≠ [] := by
        intro hnil
        rw [hnil] at e
        simp at e
      have hrestne : rest ≠ [] := by
        intro hnil
        rw [hnil] at e2
        simp at e2
      have eq3 : rest = rest.take d ++ (c :: 'x' :: 'm' :: 'l' :: post) := by
        conv_lhs => rw [← List.take_append_drop d rest]
        rw [e2]
      have eq2 : s.data.drop i =
          (s.data.drop i).take a ++ ('-' :: (rest.take d ++ (c :: 'x' :: 'm' :: 'l' :: post))) := by
        conv_lhs => rw [← List.take_append_drop a (s.data.drop i)]
        rw [e]
        conv_lhs => rw [eq3]
      have eq1 : s.data =
          s.data.take i ++
            ((s.data.drop i).take a ++
              ('-' :: (rest.take d ++ (c :: 'x' :: 'm' :: 'l' :: post)))) := by
        conv_lhs => rw [← List.take_append_drop i s.data]
        conv_lhs => rw [eq2]
      refine ⟨s.data.take i, (s.data.drop i).take a, rest.take d, post, c,
        eq1, ?_, hall, ?_, hdall, hcnl⟩
      · intro hnil
        rcases List.take_eq_nil_iff.mp hnil with h0 | hln
        · omega
        · exact hlne hln
      · intro hnil
        rcases List.take_eq_nil_iff.mp hnil with h0 | hln
        · omega
        · exact hrestne hln
  · rintro ⟨pre, s1, s2, post, c, hdata, hs1ne, hs1all, hs2ne, hs2all, hcne⟩
    unfold isXbrlFileMatch
    rw [List.any_eq_true]
    refine ⟨pre.length, ?_, ?_⟩
    · rw [List.mem_range, hdata]
      simp only [List.length_append, List.length_cons]
      omega
    · have hdrop : s.data.drop pre.length =
          s1 ++ ('-' :: (s2 ++ (c :: 'x' :: 'm' :: 'l' :: post))) := by
        rw [hdata, List.drop_left]
      rw [hdrop]
      unfold matchFromStart
      rw [List.any_eq_true]
      refine ⟨s1.length, ?_, ?_⟩
      · rw [List.mem_range]
        simp only [List.length_append, List.length_cons]
        omega
      · simp only [Bool.and_eq_true, decide_eq_true_eq]
        have h1a : 1 ≤ s1.length := List.length_pos.mpr hs1ne
        refine ⟨⟨h1a, by rw [List.take_left]; exact hs1all⟩, ?_⟩
        rw [List.drop_left]
        show (decide ('-' = '-') &&
          matchDigitsAnyXml (s2 ++ (c :: 'x' :: 'm' :: 'l' :: post))) = true
        simp only [Bool.and_eq_true, decide_eq_true_eq]
        refine ⟨trivial, ?_⟩
        unfold matchDigitsAnyXml
        rw [List.any_eq_true]
        refine ⟨s2.length, ?_, ?_⟩
        · rw [List.mem_range]
          simp only [List.length_append, List.length_cons]
          omega
        · simp only [Bool.and_eq_true, decide_eq_true_eq]
          have h1d : 1 ≤ s2.length := List.length_pos.mpr hs2ne
          refine ⟨⟨h1d, by rw [List.take_left]; exact hs2all⟩, ?_⟩
          rw [List.drop_left]
          show (decide (c ≠ '\n') && decide ('x' = 'x') && decide ('m' = 'm') &&
            decide ('l' = 'l')) = true
          simp [hcne]

/-- Lemma: `List.find?` returns the head of the first matching suffix: with no
match before `e` and a match at `e`, the scan selects `e`. -/
theorem xbrlFind_first (l1 l2 : List String) (e : String)
    (h1 : ∀ x ∈ l1, isXbrlFileMatch x = false) (he : isXbrlFileMatch e = true) :
    (l1 ++ e :: l2).find? (fun n => isXbrlFileMatch n) = some e := by
  induction l1 with
  | nil =>
    rw [List.nil_append]
    exact List.find?_cons_of_pos l2 he
  | cons a l ih =>
    have ha : isXbrlFileMatch a = false := h1 a (by simp)
    rw [List.cons_append, List.find?_cons_of_neg]
    · exact ih (fun x hx => h1 x (by simp [hx]))
    · simp [ha]

/-- C5 counterexample: the claim says an entry is selected only when
its name has the shape `[a-z0-9]+-[0-9]+\.xml` (literal dot).  The
entry name `abc-123zxml` does not have this shape — it contains no dot
at all — yet `isXbrlFileMatch` accepts it (the regex's unescaped `.`
matches `z`) and the extractor selects it and produces a report
file. -/
theorem C5_dot_matches_any_char :
    isXbrlFileMatch "abc-123zxml" = true ∧
    specXbrlShape "abc-123zxml" = false ∧
    getXbrlFromZip "/tmp/a.zip" "CIK_1" "K1" (some ["abc-123zxml"]) true "/tmp/out"
        sampleReportFile =
      [XbrlEff.openArchive "/tmp/a.zip", XbrlEff.logFoundEntry "abc-123zxml",
       XbrlEff.storeEntry "CIK_1" "K1" "abc-123zxml",
       XbrlEff.persistReportFile { sampleReportFile with Filepath := "/tmp/out" }] :=
  ⟨by decide, by decide, by decide⟩

/-- C5 amended: the selection predicate is the Go regex with its
unescaped dot and no anchors — an entry is selected iff its name
contains `[a-z0-9]+-[0-9]+` followed by any single non-newline
character and then `xml` (`isXbrlFileMatch`, characterized by
`XbrlMatchShape`).  The scan still selects the first such entry in
archive order, stops there, and when no entry matches only a
diagnostic is logged and no report file is produced. -/
theorem C5_amended_first_match_selection (zp b k esp : String) (rf : ReportFile)
    (entries : List String) :
    (∀ s : String, isXbrlFileMatch s = true ↔ XbrlMatchShape s) ∧
    (∀ e l1 l2, entries = l1 ++ e :: l2 →
      (∀ x ∈ l1, isXbrlFileMatch x = false) → isXbrlFileMatch e = true →
      getXbrlFromZip zp b k (some entries) true esp rf =
        [XbrlEff.openArchive zp, XbrlEff.logFoundEntry e, XbrlEff.storeEntry b k e,
         XbrlEff.persistReportFile { rf with Filepath := esp }]) ∧
    ((∀ x ∈ entries, isXbrlFileMatch x = false) →
      getXbrlFromZip zp b k (some entries) true esp rf =
        [XbrlEff.openArchive zp, XbrlEff.logNoMatch zp]) := by
  refine ⟨isXbrlFileMatch_iff_shape, ?_, ?_⟩
  · intro e l1 l2 hent h1 he
    subst hent
    have hf := xbrlFind_first l1 l2 e h1 he
    simp [getXbrlFromZip, hf]
  · intro hall
    have hf : entries.find? (fun n => isXbrlFileMatch n) = none :=
      List.find?_eq_none.mpr (fun x hx => by simp [hall x hx])
    simp [getXbrlFromZip, hf]

/-- C5 amended, witnessed: in an archive listing a schema file before
the instance document, the first matching entry is selected and the
report file is produced from it. -/
theorem C5_witness :
    getXbrlFromZip "/z" "B" "K" (some ["foo.xsd", "abc-12.xml"]) true "/p"
        sampleReportFile =
      [XbrlEff.openArchive "/z", XbrlEff.logFoundEntry "abc-12.xml",
       XbrlEff.storeEntry "B" "K" "abc-12.xml",
       XbrlEff.persistReportFile { sampleReportFile with Filepath := "/p" }] :=
  (C5_amended_first_match_selection "/z" "B" "K" "/p" sampleReportFile
    ["foo.xsd", "abc-12.xml"]).2.1
    "abc-12.xml" ["foo.xsd"] [] (by decide) (by decide) (by decide)
